import Mathlib

/-!
Shallow embedding of the rules engine of an 8x8 block placement puzzle
(src/script.js): board grid, placement validation, line clearing and
scoring, piece generation, rotation, progression and the game over check.
Machine numbers of the source are modelled as Nat / Int, the float
constants 0.4, 0.2, 0.8, 1.5 of the source as the rationals they denote,
and the Math.random() draws are passed in as explicit rational inputs.
-/

namespace BlockBlast

/-- Grid size N = 8 (CONFIG.GRID_SIZE). -/
def GRID_SIZE : Nat := 8

/-- The fixed six entry color palette (CONFIG.COLORS). -/
def CONFIG_COLORS : List String :=
  ["#FF5733", "#33FF57", "#3357FF", "#F333FF", "#33FFF5", "#FFD133"]

/-- A board cell: empty (none, the null of the source) or a color token. -/
abbrev Cell := Option String

/-- The board this.grid: a list of rows, each a list of cells. -/
abbrev Grid := List (List Cell)

/-- The empty 8x8 grid created by the constructor and by restartGame. -/
def emptyGrid : Grid := List.replicate 8 (List.replicate 8 none)

/-- Read grid cell (r, c); reads out of range give none. -/
def getCell (g : Grid) (r c : Nat) : Cell := (g.getD r []).getD c none

/-- Write grid cell (r, c); writes out of range leave the grid unchanged. -/
def setCell (g : Grid) (r c : Nat) (v : Cell) : Grid :=
  g.set r ((g.getD r []).set c v)

/-- An 8x8 grid: 8 rows of 8 cells each. -/
def wellFormed (g : Grid) : Prop :=
  g.length = 8 ∧ ∀ i, i < 8 → (g.getD i []).length = 8

/-- A piece: a shape matrix of 0/1 entries plus one color
(the result of generateRandomPiece). -/
structure Piece where
  shape : List (List Nat)
  color : String
deriving DecidableEq

/-- The shape matrix is rectangular: every row as long as row 0. The
source indexes every row by shape[0].length, so all its shapes are
rectangular by construction. -/
def rectangular (m : List (List Nat)) : Prop :=
  ∀ row ∈ m, row.length = (m.headD []).length

/-- isValidPlacement(startCol, startRow, piece), src/script.js 331-352:
a null piece is always invalid; otherwise every cell with entry 1,
scanned over shape.length rows and shape[0].length columns, must land
inside [0,8) on both axes and over an empty grid cell. The anchor is an
arbitrary pair of integers. -/
def isValidPlacement (g : Grid) (startCol startRow : Int) (piece : Option Piece) : Bool :=
  match piece with
  | none => false
  | some p =>
    (List.range p.shape.length).all fun r =>
      (List.range (p.shape.headD []).length).all fun c =>
        if (p.shape.getD r []).getD c 0 = 1 then
          let targetR : Int := startRow + (r : Int)
          let targetC : Int := startCol + (c : Int)
          if targetR < 0 ∨ 8 ≤ targetR ∨ targetC < 0 ∨ 8 ≤ targetC then false
          else if getCell g targetR.toNat targetC.toNat ≠ none then false
          else true
        else true

/-- rotateMatrix(matrix, clockwise), src/script.js 606-628: an R x C
matrix becomes C x R; the loop writes new[c][R-1-r] = m[r][c] clockwise
and new[C-1-c][r] = m[r][c] counter clockwise. In closed form the new
entry at (i, j) is m[R-1-j][i] clockwise and m[j][C-1-i] counter
clockwise; both fills hit every target cell exactly once. -/
def rotateMatrix (m : List (List Nat)) (clockwise : Bool) : List (List Nat) :=
  let rows := m.length
  let cols := (m.headD []).length
  if clockwise then
    (List.range cols).map fun i => (List.range rows).map fun j =>
      (m.getD (rows - 1 - j) []).getD i 0
  else
    (List.range cols).map fun i => (List.range rows).map fun j =>
      (m.getD j []).getD (cols - 1 - i) 0

/-- The per piece update of rotateAllPieces, src/script.js 586-604:
piece.shape is replaced by the rotated matrix, the color is untouched. -/
def rotatePiece (p : Piece) (clockwise : Bool) : Piece :=
  { p with shape := rotateMatrix p.shape clockwise }

/-- Four successive rotations in the same direction. -/
def rotate4 (m : List (List Nat)) (clockwise : Bool) : List (List Nat) :=
  rotateMatrix (rotateMatrix (rotateMatrix (rotateMatrix m clockwise) clockwise) clockwise) clockwise

/-- SMALL_BLOCKS pool (src/script.js 218-222). -/
def SMALL_BLOCKS : List (List (List Nat)) :=
  [[[1]], [[1, 1]], [[1], [1]]]

/-- TETROMINOES pool (src/script.js 225-237). -/
def TETROMINOES : List (List (List Nat)) :=
  [[[1, 1, 1, 1]],
   [[1], [1], [1], [1]],
   [[1, 1], [1, 1]],
   [[0, 1, 0], [1, 1, 1]],
   [[1, 0], [1, 1], [1, 0]],
   [[0, 1, 1], [1, 1, 0]],
   [[1, 1, 0], [0, 1, 1]],
   [[1, 0, 0], [1, 1, 1]],
   [[0, 0, 1], [1, 1, 1]],
   [[1, 1], [1, 0], [1, 0]],
   [[1, 1], [0, 1], [0, 1]]]

/-- COMPLEX_SHAPES pool (src/script.js 240-245). -/
def COMPLEX_SHAPES : List (List (List Nat)) :=
  [[[1, 1, 1], [1, 1, 1]],
   [[1, 1, 1], [1, 0, 1]],
   [[1, 0, 0], [1, 0, 0], [1, 1, 1]],
   [[0, 0, 1], [0, 0, 1], [1, 1, 1]]]

/-- Pool selection of generateRandomPiece (src/script.js 247-262), the
Math.random() draw passed in explicitly. -/
def selectPool (level : Nat) (rand : ℚ) : List (List (List Nat)) :=
  if level < 3 then
    if rand < 2/5 then SMALL_BLOCKS else TETROMINOES
  else
    if rand < 1/5 then SMALL_BLOCKS
    else if rand < 4/5 then TETROMINOES
    else COMPLEX_SHAPES

/-- generateRandomPiece (src/script.js 214-267) with its three
Math.random() draws passed in explicitly: one for the pool, one for the
shape index floor(r * pool.length), one for the color index
floor(r * 6). No other state than the level is read and none is written:
the function is pure in (level, draws). -/
def generateRandomPiece (level : Nat) (poolRand shapeRand colorRand : ℚ) : Piece :=
  let shapesPool := selectPool level poolRand
  let shape := shapesPool.getD (⌊shapeRand * (shapesPool.length : ℚ)⌋).toNat []
  let color := CONFIG_COLORS.getD (⌊colorRand * (CONFIG_COLORS.length : ℚ)⌋).toNat ""
  { shape := shape, color := color }

/-- Row r is full: every cell of this.grid[r] is non null (checkForLines). -/
def rowFull (g : Grid) (r : Nat) : Bool :=
  (g.getD r []).all fun cell => !(cell == none)

/-- Column c is full: grid[r][c] is non null for every r < 8 (checkForLines). -/
def colFull (g : Grid) (c : Nat) : Bool :=
  (List.range 8).all fun r => !(getCell g r c == none)

/-- rowsToClear of checkForLines: the full row indices, ascending. -/
def rowsToClear (g : Grid) : List Nat := (List.range 8).filter (rowFull g)

/-- colsToClear of checkForLines: the full column indices, ascending. -/
def colsToClear (g : Grid) : List Nat := (List.range 8).filter (colFull g)

/-- The union set of cells of the rows and columns to clear: the JS Set
of r,c keys built in clearLines, duplicates removed. -/
def cellsToClear (rows cols : List Nat) : List (Nat × Nat) :=
  ((rows.flatMap fun r => (List.range 8).map fun c => (r, c)) ++
   (cols.flatMap fun c => (List.range 8).map fun r => (r, c))).dedup

/-- The grid mutation of clearLines (src/script.js 442-468): every cell
in the union set becomes empty. -/
def clearLinesGrid (g : Grid) (rows cols : List Nat) : Grid :=
  (cellsToClear rows cols).foldl (fun g2 rc => setCell g2 rc.1 rc.2 none) g

/-- Combo multiplier of clearLines: 1 line x1, 2 lines x1.5, 3 lines x2,
4 or more x3. -/
def multiplier (lineCount : Nat) : ℚ :=
  if 4 ≤ lineCount then 3
  else if lineCount = 3 then 2
  else if lineCount = 2 then 3/2
  else 1

/-- Base score per line (this.pxPerLine). -/
def pxPerLine : Nat := 100

/-- points = Math.round((lineCount * this.pxPerLine) * multiplier) in clearLines. -/
def clearPoints (lineCount : Nat) : Int :=
  round (((lineCount * pxPerLine : Nat) : ℚ) * multiplier lineCount)

/-- checkForLines (src/script.js 414-440) together with the grid and
scoring effect of clearLines: returns the updated grid, and some points
when at least one row or column is full; otherwise the grid is returned
untouched and no scoring event fires (none). -/
def checkForLines (g : Grid) : Grid × Option Int :=
  let rows := rowsToClear g
  let cols := colsToClear g
  if 0 < rows.length ∨ 0 < cols.length then
    (clearLinesGrid g rows cols, some (clearPoints (rows.length + cols.length)))
  else (g, none)

/-- The mutable session state the claims need: grid, score, high score,
level and the tray this.activePieces (null slots = used). -/
structure GameState where
  grid : Grid
  score : Int
  highScore : Int
  level : Nat
  activePieces : List (Option Piece)
deriving DecidableEq

/-- updateLevel(lvl), src/script.js 581-584. -/
def updateLevel (s : GameState) (lvl : Nat) : GameState :=
  { s with level := lvl }

/-- updateScore(newScore), src/script.js 562-579: store the new score,
raise the high score to it when exceeded, then one single threshold
check: if score >= level * 500 the level goes up by exactly one. -/
def updateScore (s : GameState) (newScore : Int) : GameState :=
  let s1 : GameState := { s with score := newScore }
  let s2 : GameState :=
    if s1.highScore < s1.score then { s1 with highScore := s1.score } else s1
  if (s2.level : Int) * 500 ≤ s2.score then updateLevel s2 (s2.level + 1) else s2

/-- restartGame, src/script.js 38-49: fresh empty grid, score 0, level 1,
tray emptied then refilled by spawnPieces, whose randomly generated
pieces are passed in explicitly; the updateScore(0) and updateLevel(1)
calls of the source are performed. -/
def restartGame (s : GameState) (newPieces : List (Option Piece)) : GameState :=
  let s1 : GameState := { s with grid := emptyGrid, score := 0, level := 1, activePieces := [] }
  let s2 := updateScore s1 0
  let s3 := updateLevel s2 1
  { s3 with activePieces := newPieces }

/-- rotateAllPieces, src/script.js 586-604: every non null tray piece is
replaced by its rotated version. -/
def rotateAllPieces (s : GameState) (clockwise : Bool) : GameState :=
  { s with activePieces := s.activePieces.map fun p => p.map fun q => rotatePiece q clockwise }

/-- checkGameOver, src/script.js 529-555: returns true exactly when the
terminal transition triggerGameOver fires: no unused (non null) piece
fits anywhere on the 8x8 grid and at least one unused piece remains. -/
def checkGameOver (g : Grid) (pieces : List (Option Piece)) : Bool :=
  let canPlaceAny := pieces.any fun p =>
    match p with
    | none => false
    | some piece =>
      (List.range 8).any fun r => (List.range 8).any fun c =>
        isValidPlacement g (c : Int) (r : Int) (some piece)
  !canPlaceAny && pieces.any fun p => !(p == none)

/-- The state built by the constructor: empty grid, score 0, level 1, the
persisted high score read from storage passed in explicitly. -/
def initialState (storedHighScore : Int) : GameState :=
  { grid := emptyGrid, score := 0, highScore := storedHighScore, level := 1, activePieces := [] }

/-- The progression invariant of the spec: level at least 1 and
score at least (level - 1) * 500 after settling. -/
def scoreLevelInv (s : GameState) : Prop :=
  1 ≤ s.level ∧ ((s.level : Int) - 1) * 500 ≤ s.score

/-- A sample well formed grid whose first row is full: used to instantiate
theorems with hypotheses at a concrete input. -/
def fullRowGrid : Grid :=
  List.replicate 8 (some "#FF5733") :: List.replicate 7 (List.replicate 8 none)

end BlockBlast

/-! ## Helper lemmas -/

namespace BlockBlast

/-- In a rectangular shape matrix every row read in range has the length
of row 0. -/
theorem getD_row_length (p : Piece) (hrect : rectangular p.shape) (r : Nat)
    (hr : r < p.shape.length) :
    (p.shape.getD r []).length = (p.shape.headD []).length := by
  apply hrect
  rw [List.getD_eq_getElem _ _ hr]
  exact List.getElem_mem hr

/-- Reading a mapped range list inside its bounds gives the mapped value. -/
theorem getD_map_range {α : Type} (n : Nat) (f : Nat → α) (i : Nat) (h : i < n) (d : α) :
    ((List.range n).map f).getD i d = f i := by
  rw [List.getD_eq_getElem _ _ (by simpa using h)]
  simp

/-- The three fields updateScore writes: the stored score becomes the new
score, the high score becomes the maximum of the old high score and the
new score, and the level goes up by one exactly when the new score has
reached the current threshold level * 500. -/
theorem updateScore_fields (s : GameState) (newScore : Int) :
    (updateScore s newScore).score = newScore ∧
    (updateScore s newScore).highScore = max s.highScore newScore ∧
    (updateScore s newScore).level =
      (if (s.level : Int) * 500 ≤ newScore then s.level + 1 else s.level) := by
  unfold updateScore updateLevel
  by_cases h1 : s.highScore < newScore
  · simp only [h1, if_true]
    by_cases h2 : (s.level : Int) * 500 ≤ newScore
    · simp [h2]
      omega
    · simp [h2]
      omega
  · simp only [h1, if_false]
    by_cases h2 : (s.level : Int) * 500 ≤ newScore
    · simp [h2]
      omega
    · simp [h2]
      omega

/-- The five fields restartGame writes: empty grid, score 0, level 1, the
new tray, and a high score only ever raised (to 0, when it was negative). -/
theorem restart_fields (s : GameState) (ps : List (Option Piece)) :
    (restartGame s ps).grid = emptyGrid ∧
    (restartGame s ps).score = 0 ∧
    (restartGame s ps).highScore = max s.highScore 0 ∧
    (restartGame s ps).level = 1 ∧
    (restartGame s ps).activePieces = ps := by
  unfold restartGame updateScore updateLevel
  by_cases hh : s.highScore < (0 : Int)
  · simp only [hh, if_true]
    norm_num
    omega
  · simp only [hh, if_false]
    norm_num
    omega

theorem multiplier_one : multiplier 1 = 1 := by norm_num [multiplier]

theorem multiplier_two : multiplier 2 = 3 / 2 := by norm_num [multiplier]

theorem multiplier_three : multiplier 3 = 2 := by norm_num [multiplier]

theorem multiplier_ge_four (n : Nat) (h : 4 ≤ n) : multiplier n = 3 := by
  unfold multiplier
  rw [if_pos h]

theorem clearPoints_one : clearPoints 1 = 100 := by
  unfold clearPoints pxPerLine
  rw [multiplier_one]
  rw [show (((1 * 100 : Nat) : ℚ) * 1) = ((100 : ℤ) : ℚ) by norm_num]
  rw [round_intCast]

theorem clearPoints_two : clearPoints 2 = 300 := by
  unfold clearPoints pxPerLine
  rw [multiplier_two]
  rw [show (((2 * 100 : Nat) : ℚ) * (3 / 2)) = ((300 : ℤ) : ℚ) by norm_num]
  rw [round_intCast]

theorem clearPoints_three : clearPoints 3 = 600 := by
  unfold clearPoints pxPerLine
  rw [multiplier_three]
  rw [show (((3 * 100 : Nat) : ℚ) * 2) = ((600 : ℤ) : ℚ) by norm_num]
  rw [round_intCast]

theorem multiplier_pos (n : Nat) : 0 < multiplier n := by
  unfold multiplier
  split
  · norm_num
  · split
    · norm_num
    · split <;> norm_num

/-- A line clear never awards negative points. -/
theorem clearPoints_nonneg (n : Nat) : 0 ≤ clearPoints n := by
  unfold clearPoints
  rw [round_eq]
  apply Int.floor_nonneg.mpr
  have hm := multiplier_pos n
  have h1 : (0 : ℚ) ≤ ((n * pxPerLine : Nat) : ℚ) * multiplier n := by
    apply mul_nonneg
    · positivity
    · exact le_of_lt hm
  linarith

/-- setCell inside the 8x8 bounds keeps the grid well formed. -/
theorem wellFormed_setCell (g : Grid) (hw : wellFormed g) (r c : Nat) (v : Cell) :
    wellFormed (setCell g r c v) := by
  obtain ⟨h1, h2⟩ := hw
  refine ⟨by simp [setCell, h1], ?_⟩
  intro i hi
  unfold setCell
  rw [List.getD_eq_getElem?_getD, List.getElem?_set]
  by_cases hri : r = i
  · subst hri
    rw [if_pos rfl, if_pos (by omega)]
    simp only [Option.getD_some, List.length_set]
    exact h2 r hi
  · rw [if_neg hri, ← List.getD_eq_getElem?_getD]
    exact h2 i hi

/-- setCell changes exactly the one targeted cell of a well formed grid. -/
theorem getCell_setCell (g : Grid) (hw : wellFormed g) (r c : Nat)
    (hr : r < 8) (hc : c < 8) (v : Cell) (i j : Nat) :
    getCell (setCell g r c v) i j = if r = i ∧ c = j then v else getCell g i j := by
  obtain ⟨h1, h2⟩ := hw
  unfold getCell setCell
  simp only [List.getD_eq_getElem?_getD]
  rw [List.getElem?_set]
  by_cases hri : r = i
  · subst hri
    rw [if_pos rfl, if_pos (by omega)]
    simp only [Option.getD_some]
    rw [List.getElem?_set]
    by_cases hcj : c = j
    · subst hcj
      rw [if_pos rfl, if_pos (by rw [← List.getD_eq_getElem?_getD, h2 r hr]; omega)]
      simp
    · rw [if_neg hcj, if_neg (by tauto)]
  · rw [if_neg hri, if_neg (by tauto)]

/-- Folding setCell none over a list of in-bounds positions empties exactly
the listed cells. -/
theorem clearFold_getCell (L : List (Nat × Nat)) (g : Grid) (hw : wellFormed g)
    (hL : ∀ p ∈ L, p.1 < 8 ∧ p.2 < 8) (i j : Nat) :
    getCell (L.foldl (fun g2 rc => setCell g2 rc.1 rc.2 none) g) i j =
      if (i, j) ∈ L then none else getCell g i j := by
  induction L generalizing g with
  | nil => simp
  | cons hd tl ih =>
    rw [List.foldl_cons]
    have hhd := hL hd (List.mem_cons_self hd tl)
    rw [ih (setCell g hd.1 hd.2 none)
      (wellFormed_setCell g hw hd.1 hd.2 none)
      (fun p hp => hL p (List.mem_cons_of_mem _ hp))]
    rw [getCell_setCell g hw hd.1 hd.2 hhd.1 hhd.2 none i j]
    by_cases hmem : (i, j) ∈ tl
    · simp [hmem, List.mem_cons]
    · by_cases heq : hd.1 = i ∧ hd.2 = j
      · have hconsmem : (i, j) ∈ hd :: tl := by
          rw [List.mem_cons]
          left
          rw [Prod.ext_iff]
          exact ⟨heq.1.symm, heq.2.symm⟩
        simp [hmem, heq, hconsmem]
      · have hnot : ¬(i, j) ∈ hd :: tl := by
          rw [List.mem_cons]
          rintro (h | h)
          · exact heq ⟨congrArg Prod.fst h.symm, congrArg Prod.snd h.symm⟩
          · exact hmem h
        simp [hmem, heq, hnot]

/-- A cell is in the union set exactly when its row is a cleared row or
its column is a cleared column (with the other index on the board). -/
theorem mem_cellsToClear (rows cols : List Nat) (i j : Nat) :
    (i, j) ∈ cellsToClear rows cols ↔ (i ∈ rows ∧ j < 8) ∨ (j ∈ cols ∧ i < 8) := by
  unfold cellsToClear
  rw [List.mem_dedup, List.mem_append, List.mem_flatMap, List.mem_flatMap]
  constructor
  · rintro (⟨a, ha, hm⟩ | ⟨a, ha, hm⟩) <;> rw [List.mem_map] at hm <;>
      obtain ⟨b, hb, hpair⟩ := hm <;>
      obtain ⟨e1, e2⟩ := Prod.ext_iff.mp hpair
    · subst e1; subst e2
      exact Or.inl ⟨ha, List.mem_range.mp hb⟩
    · subst e1; subst e2
      exact Or.inr ⟨ha, List.mem_range.mp hb⟩
  · rintro (⟨ha, hj⟩ | ⟨ha, hi⟩)
    · exact Or.inl ⟨i, ha, List.mem_map.mpr ⟨j, List.mem_range.mpr hj, rfl⟩⟩
    · exact Or.inr ⟨j, ha, List.mem_map.mpr ⟨i, List.mem_range.mpr hi, rfl⟩⟩

theorem mem_rowsToClear_lt (g : Grid) (r : Nat) (h : r ∈ rowsToClear g) : r < 8 :=
  List.mem_range.mp (List.mem_of_mem_filter h)

theorem mem_colsToClear_lt (g : Grid) (c : Nat) (h : c ∈ colsToClear g) : c < 8 :=
  List.mem_range.mp (List.mem_of_mem_filter h)

/-- floor(r * n) lands inside [0, n) for a draw r in [0, 1). -/
theorem floor_mul_toNat_lt (r : ℚ) (n : Nat) (h1 : r < 1) (hn : 0 < n) :
    (⌊r * (n : ℚ)⌋).toNat < n := by
  have hlt : ⌊r * (n : ℚ)⌋ < (n : Int) := by
    apply Int.floor_lt.mpr
    push_cast
    calc r * n < 1 * n := by
          apply mul_lt_mul_of_pos_right h1
          exact_mod_cast hn
      _ = n := one_mul _
  omega

/-- selectPool always returns one of the three fixed pools. -/
theorem selectPool_cases (level : Nat) (r1 : ℚ) :
    selectPool level r1 = SMALL_BLOCKS ∨ selectPool level r1 = TETROMINOES ∨
      selectPool level r1 = COMPLEX_SHAPES := by
  unfold selectPool
  split
  · split <;> tauto
  · split
    · tauto
    · split <;> tauto

theorem selectPool_length_pos (level : Nat) (r1 : ℚ) :
    0 < (selectPool level r1).length := by
  rcases selectPool_cases level r1 with h | h | h <;> rw [h] <;> decide

end BlockBlast

/-! ## The claims -/

namespace BlockBlast

/-- Claim C1: for every board, every integer anchor and every piece with a
rectangular (matrix) shape, isValidPlacement is true exactly when every
occupied cell (entry 1) of the shape lands inside [0,8) on both axes over
an empty board cell; a null (none) piece always yields false. -/
theorem claim1_isValidPlacement_iff (g : Grid) (col row : Int) (p : Piece)
    (hrect : rectangular p.shape) :
    isValidPlacement g col row none = false ∧
    (isValidPlacement g col row (some p) = true ↔
      ∀ r, r < p.shape.length → ∀ c, c < (p.shape.getD r []).length →
        (p.shape.getD r []).getD c 0 = 1 →
        0 ≤ row + (r : Int) ∧ row + (r : Int) < 8 ∧
        0 ≤ col + (c : Int) ∧ col + (c : Int) < 8 ∧
        getCell g (row + (r : Int)).toNat (col + (c : Int)).toNat = none) := by
  refine ⟨rfl, ?_⟩
  simp only [isValidPlacement, List.all_eq_true, List.mem_range]
  constructor
  · intro h r hr c hc h1
    have hclen := getD_row_length p hrect r hr
    have h2 := h r hr c (hclen ▸ hc)
    rw [if_pos h1] at h2
    split at h2
    · exact absurd h2 (by simp)
    · rename_i hb
      push_neg at hb
      split at h2
      · exact absurd h2 (by simp)
      · rename_i hg
        push_neg at hg
        exact ⟨hb.1, hb.2.1, hb.2.2.1, hb.2.2.2, hg⟩
  · intro h r hr c hc
    have hclen := getD_row_length p hrect r hr
    by_cases h1 : (p.shape.getD r []).getD c 0 = 1
    · obtain ⟨a1, a2, a3, a4, a5⟩ := h r hr c (by rw [hclen]; exact hc) h1
      rw [if_pos h1, if_neg (by push_neg; exact ⟨a1, a2, a3, a4⟩), if_neg (by simp [a5])]
    · rw [if_neg h1]

set_option synthInstance.maxSize 2000 in
/-- Witness for C1 at a concrete input: an S corner piece at anchor
column 2, row 3 of the empty grid is a valid placement. -/
theorem claim1_witness :
    isValidPlacement emptyGrid 2 3 (some ⟨[[1, 1], [1, 0]], "#FF5733"⟩) = true :=
  (claim1_isValidPlacement_iff emptyGrid 2 3 ⟨[[1, 1], [1, 0]], "#FF5733"⟩
    (by unfold rectangular; decide)).2.mpr (by decide)

/-- Claim C2, counterexample: one single updateScore call that jumps the
score from 0 to 1200 crosses two thresholds (500 and 1000) but raises the
level only once, so score < level * 500 does NOT hold after the call,
refuting the claimed run-to-fixed-point loop. -/
theorem claim2_counterexample :
    ¬((updateScore (initialState 0) 1200).score
        < ((updateScore (initialState 0) 1200).level : Int) * 500) := by
  decide

/-- Claim C2 as amended: updateScore runs the threshold check once per
call (an if, not a while loop): the level rises by at most one, never
falls, and score < level * 500 holds after the call only when the new
score is below the next threshold (level + 1) * 500. -/
theorem claim2_single_step (s : GameState) (newScore : Int)
    (h : newScore < ((s.level : Int) + 1) * 500) :
    (updateScore s newScore).level ≤ s.level + 1 ∧
    s.level ≤ (updateScore s newScore).level ∧
    (updateScore s newScore).score < ((updateScore s newScore).level : Int) * 500 := by
  obtain ⟨h1, h2, h3⟩ := updateScore_fields s newScore
  rw [h1, h3]
  by_cases hth : (s.level : Int) * 500 ≤ newScore
  · simp only [hth, if_true]
    refine ⟨le_refl _, by omega, ?_⟩
    push_cast
    omega
  · simp only [hth, if_false]
    refine ⟨by omega, le_refl _, by omega⟩

/-- Witness for the amended C2: awarding 700 from the initial state stays
below the next threshold, so the single step lands below level * 500. -/
theorem claim2_single_step_witness :
    (updateScore (initialState 0) 700).level ≤ (initialState 0).level + 1 ∧
    (initialState 0).level ≤ (updateScore (initialState 0) 700).level ∧
    (updateScore (initialState 0) 700).score
      < ((updateScore (initialState 0) 700).level : Int) * 500 :=
  claim2_single_step (initialState 0) 700 (by norm_num [initialState])

/-- Claim C3: an in-game updateScore call (the new score is the old score
plus a non-negative award, so old score <= new score) never decreases the
score, never decreases the level, preserves the progression invariant
score >= (level - 1) * 500 with level >= 1, and that invariant holds in
the initial state (level 1, score 0); moreover every line clear award
clearPoints n is non-negative, so the in-game calls are indeed
non-decreasing. -/
theorem claim3_score_monotone (s : GameState) (newScore : Int)
    (h : s.score ≤ newScore) :
    s.score ≤ (updateScore s newScore).score ∧
    s.level ≤ (updateScore s newScore).level ∧
    (scoreLevelInv s → scoreLevelInv (updateScore s newScore)) ∧
    (∀ h0 : Int, scoreLevelInv (initialState h0)) ∧
    (∀ n : Nat, 0 ≤ clearPoints n) := by
  obtain ⟨h1, h2, h3⟩ := updateScore_fields s newScore
  refine ⟨by omega, ?_, ?_, ?_, clearPoints_nonneg⟩
  · rw [h3]
    split <;> omega
  · rintro ⟨hi1, hi2⟩
    constructor
    · rw [h3]; split <;> omega
    · rw [h3, h1]
      split
      · rename_i hth
        push_cast
        omega
      · rename_i hth
        omega
  · intro h0
    exact ⟨le_refl 1, by norm_num [initialState]⟩

/-- Witness for C3 at a concrete input: awarding 300 points from the
initial state. -/
theorem claim3_score_monotone_witness :
    (initialState 0).score ≤ (updateScore (initialState 0) 300).score ∧
    (initialState 0).level ≤ (updateScore (initialState 0) 300).level ∧
    (scoreLevelInv (initialState 0) → scoreLevelInv (updateScore (initialState 0) 300)) ∧
    (∀ h0 : Int, scoreLevelInv (initialState h0)) ∧
    (∀ n : Nat, 0 ≤ clearPoints n) :=
  claim3_score_monotone (initialState 0) 300 (by norm_num [initialState])

/-- Claim C4: after a placement, checkForLines fires a scoring event
exactly when lineCount = |full rows| + |full columns| > 0, awarding
clearPoints lineCount = round(lineCount * 100 * multiplier) with
multiplier 1, 1.5, 2, 3 for 1, 2, 3, >= 4 lines; in particular 2 rows
plus 1 column (lineCount 3) award 600, and lineCount 0 fires none. -/
theorem claim4_scoring (g : Grid) :
    ((checkForLines g).2 =
      if 0 < (rowsToClear g).length + (colsToClear g).length then
        some (clearPoints ((rowsToClear g).length + (colsToClear g).length))
      else none) ∧
    (∀ n : Nat, clearPoints n = round (((n : ℚ) * 100) * multiplier n)) ∧
    multiplier 1 = 1 ∧ multiplier 2 = 3 / 2 ∧ multiplier 3 = 2 ∧
    (∀ n : Nat, 4 ≤ n → multiplier n = 3) ∧
    clearPoints 1 = 100 ∧ clearPoints 2 = 300 ∧ clearPoints 3 = 600 := by
  refine ⟨?_, ?_, multiplier_one, multiplier_two, multiplier_three,
    multiplier_ge_four, clearPoints_one, clearPoints_two, clearPoints_three⟩
  · unfold checkForLines
    by_cases h : 0 < (rowsToClear g).length ∨ 0 < (colsToClear g).length
    · rw [if_pos h, if_pos (by omega)]
    · rw [if_neg h, if_neg (by omega)]
  · intro n
    unfold clearPoints pxPerLine
    norm_num

/-- Claim C5: checkGameOver triggers the terminal transition exactly when
no unused (non null) tray piece fits at any of the 64 anchor positions
and at least one unused piece remains; any valid combination, or an
all-used tray, means no game over. -/
theorem claim5_game_over_iff (g : Grid) (pieces : List (Option Piece)) :
    checkGameOver g pieces = true ↔
      ((∀ p ∈ pieces, p ≠ none →
          ∀ r : Nat, r < 8 → ∀ c : Nat, c < 8 →
            isValidPlacement g (c : Int) (r : Int) p = false) ∧
        ∃ p ∈ pieces, p ≠ none) := by
  unfold checkGameOver
  rw [Bool.and_eq_true, Bool.not_eq_true', List.any_eq_false, List.any_eq_true]
  constructor
  · rintro ⟨hno, p, hp, hpe⟩
    refine ⟨?_, p, hp, by simpa using hpe⟩
    intro q hq hqne r hr c hc
    have h2 := hno q hq
    cases q with
    | none => cases hqne rfl
    | some piece =>
      replace h2 : ((List.range 8).any fun r => (List.range 8).any fun c =>
          isValidPlacement g (c : Int) (r : Int) (some piece)) = false := by
        simpa using h2
      rw [List.any_eq_false] at h2
      have h3 := h2 r (List.mem_range.mpr hr)
      replace h3 : ∀ c : Nat, c < 8 →
          isValidPlacement g (c : Int) (r : Int) (some piece) = false := by
        simpa [List.any_eq_true, List.mem_range, Bool.not_eq_true] using h3
      exact h3 c hc
  · rintro ⟨hall, p, hp, hpe⟩
    refine ⟨?_, p, hp, by simpa using hpe⟩
    intro q hq
    cases q with
    | none => simp
    | some piece =>
      show ¬((List.range 8).any fun r => (List.range 8).any fun c =>
          isValidPlacement g (c : Int) (r : Int) (some piece)) = true
      rw [List.any_eq_true]
      rintro ⟨r, hr, hrany⟩
      rw [List.any_eq_true] at hrany
      obtain ⟨c, hc, hvalid⟩ := hrany
      rw [hall (some piece) hq (by simp) r (List.mem_range.mp hr)
        c (List.mem_range.mp hc)] at hvalid
      cases hvalid

end BlockBlast

namespace BlockBlast

/-- Claim C6: after the line clear step, exactly the cells in the union of
the full rows and full columns (computed on the post placement board) are
empty and every other cell is unchanged; the union list has no duplicate
cell (an intersection cell is cleared once); with no full line the board
is returned untouched. -/
theorem claim6_clear_frame (g : Grid) (hw : wellFormed g) (r c : Nat)
    (hr : r < 8) (hc : c < 8) :
    (getCell (checkForLines g).1 r c =
      if r ∈ rowsToClear g ∨ c ∈ colsToClear g then none else getCell g r c) ∧
    (cellsToClear (rowsToClear g) (colsToClear g)).Nodup ∧
    (rowsToClear g = [] ∧ colsToClear g = [] → (checkForLines g).1 = g) := by
  refine ⟨?_, List.nodup_dedup _, ?_⟩
  · unfold checkForLines
    by_cases h : 0 < (rowsToClear g).length ∨ 0 < (colsToClear g).length
    · rw [if_pos h]
      show getCell (clearLinesGrid g (rowsToClear g) (colsToClear g)) r c = _
      unfold clearLinesGrid
      rw [clearFold_getCell _ g hw ?hbounds r c]
      case hbounds =>
        intro p hp
        have hm := (mem_cellsToClear (rowsToClear g) (colsToClear g) p.1 p.2).mp
          (by simpa using hp)
        rcases hm with ⟨hm1, hm2⟩ | ⟨hm1, hm2⟩
        · exact ⟨mem_rowsToClear_lt g p.1 hm1, hm2⟩
        · exact ⟨hm2, mem_colsToClear_lt g p.2 hm1⟩
      by_cases h1 : r ∈ rowsToClear g <;> by_cases h2 : c ∈ colsToClear g <;>
        simp [mem_cellsToClear, h1, h2, hr, hc]
    · rw [if_neg h]
      push_neg at h
      have h1 : rowsToClear g = [] := List.length_eq_zero.mp (by omega)
      have h2 : colsToClear g = [] := List.length_eq_zero.mp (by omega)
      simp [h1, h2]
  · rintro ⟨h1, h2⟩
    unfold checkForLines
    rw [if_neg (by rw [h1, h2]; simp)]

/-- Witness for C6 at a concrete input: the grid whose first row is full,
looked at cell (0, 0). -/
theorem claim6_clear_frame_witness :
    (getCell (checkForLines fullRowGrid).1 0 0 =
      if 0 ∈ rowsToClear fullRowGrid ∨ 0 ∈ colsToClear fullRowGrid then none
      else getCell fullRowGrid 0 0) ∧
    (cellsToClear (rowsToClear fullRowGrid) (colsToClear fullRowGrid)).Nodup ∧
    (rowsToClear fullRowGrid = [] ∧ colsToClear fullRowGrid = [] →
      (checkForLines fullRowGrid).1 = fullRowGrid) :=
  claim6_clear_frame fullRowGrid (by unfold wellFormed fullRowGrid; decide) 0 0
    (by norm_num) (by norm_num)

/-- Claim C7: on an R x C shape matrix, the clockwise rotation maps the
entry at (r, c) to (c, R-1-r), the counter clockwise rotation maps it to
(C-1-c, r), and rotating a piece never changes its color. -/
theorem claim7_rotation_mapping (m : List (List Nat)) (r c : Nat)
    (hr : r < m.length) (hc : c < (m.headD []).length) :
    ((rotateMatrix m true).getD c []).getD (m.length - 1 - r) 0
      = (m.getD r []).getD c 0 ∧
    ((rotateMatrix m false).getD ((m.headD []).length - 1 - c) []).getD r 0
      = (m.getD r []).getD c 0 ∧
    ∀ (p : Piece) (b : Bool), (rotatePiece p b).color = p.color := by
  refine ⟨?_, ?_, fun p b => rfl⟩
  · unfold rotateMatrix
    rw [if_pos rfl]
    rw [getD_map_range _ _ c hc]
    rw [getD_map_range _ _ (m.length - 1 - r) (by omega)]
    rw [show m.length - 1 - (m.length - 1 - r) = r by omega]
  · unfold rotateMatrix
    rw [if_neg (by simp)]
    rw [getD_map_range _ _ ((m.headD []).length - 1 - c) (by omega)]
    rw [getD_map_range _ _ r hr]
    rw [show (m.headD []).length - 1 - ((m.headD []).length - 1 - c) = c by omega]

/-- Witness for C7 at a concrete input: the T tetromino at entry (0, 1). -/
theorem claim7_rotation_mapping_witness :
    ((rotateMatrix [[0, 1, 0], [1, 1, 1]] true).getD 1 []).getD
        ([[0, 1, 0], [1, 1, 1]].length - 1 - 0) 0
      = ([[0, 1, 0], [1, 1, 1]].getD 0 []).getD 1 0 ∧
    ((rotateMatrix [[0, 1, 0], [1, 1, 1]] false).getD
        (([[0, 1, 0], [1, 1, 1]].headD []).length - 1 - 1) []).getD 0 0
      = ([[0, 1, 0], [1, 1, 1]].getD 0 []).getD 1 0 ∧
    ∀ (p : Piece) (b : Bool), (rotatePiece p b).color = p.color :=
  claim7_rotation_mapping [[0, 1, 0], [1, 1, 1]] 0 1 (by norm_num) (by norm_num)

/-- Claim C8: for every shape in the Small, Tetromino and Complex pools,
four clockwise rotations and four counter clockwise rotations both
return the original shape matrix. -/
theorem claim8_rotation_round_trip :
    ∀ s ∈ SMALL_BLOCKS ++ TETROMINOES ++ COMPLEX_SHAPES,
      rotate4 s true = s ∧ rotate4 s false = s := by
  decide

/-- Witness for C8 at a concrete input: the T tetromino. -/
theorem claim8_rotation_round_trip_witness :
    rotate4 [[0, 1, 0], [1, 1, 1]] true = [[0, 1, 0], [1, 1, 1]] ∧
    rotate4 [[0, 1, 0], [1, 1, 1]] false = [[0, 1, 0], [1, 1, 1]] :=
  claim8_rotation_round_trip [[0, 1, 0], [1, 1, 1]] (by decide)

/-- Claim C9: with the Math.random() draws passed in as explicit inputs
in [0, 1), piece generation picks the pool by the stated thresholds
(level < 3: draw < 0.4 Small else Tetromino; level >= 3: draw < 0.2
Small, < 0.8 Tetromino, else Complex), the pools have 3, 11 and 4 shapes,
the shape is pool[floor(draw * pool.length)] (a member of the selected
pool for every draw, the uniform choice), and the color is
palette[floor(draw * 6)] from the fixed 6 entry palette; the function
reads no other state. -/
theorem claim9_generation (level : Nat) (r1 r2 r3 : ℚ)
    (h2a : 0 ≤ r2) (h2b : r2 < 1) (h3a : 0 ≤ r3) (h3b : r3 < 1) :
    (level < 3 →
      selectPool level r1 = if r1 < 2/5 then SMALL_BLOCKS else TETROMINOES) ∧
    (3 ≤ level →
      selectPool level r1 =
        if r1 < 1/5 then SMALL_BLOCKS
        else if r1 < 4/5 then TETROMINOES else COMPLEX_SHAPES) ∧
    SMALL_BLOCKS.length = 3 ∧ TETROMINOES.length = 11 ∧ COMPLEX_SHAPES.length = 4 ∧
    CONFIG_COLORS.length = 6 ∧
    (generateRandomPiece level r1 r2 r3).shape =
      (selectPool level r1).getD (⌊r2 * ((selectPool level r1).length : ℚ)⌋).toNat [] ∧
    (generateRandomPiece level r1 r2 r3).shape ∈ selectPool level r1 ∧
    (generateRandomPiece level r1 r2 r3).color =
      CONFIG_COLORS.getD (⌊r3 * ((6 : Nat) : ℚ)⌋).toNat "" ∧
    (generateRandomPiece level r1 r2 r3).color ∈ CONFIG_COLORS ∧
    (0 : Int) ≤ ⌊r2 * ((selectPool level r1).length : ℚ)⌋ ∧
    (0 : Int) ≤ ⌊r3 * ((6 : Nat) : ℚ)⌋ := by
  refine ⟨?_, ?_, rfl, rfl, rfl, rfl, rfl, ?_, rfl, ?_,
    Int.floor_nonneg.mpr (mul_nonneg h2a (by positivity)),
    Int.floor_nonneg.mpr (mul_nonneg h3a (by positivity))⟩
  · intro hl
    unfold selectPool
    rw [if_pos hl]
  · intro hl
    unfold selectPool
    rw [if_neg (by omega)]
  · show (selectPool level r1).getD (⌊r2 * ((selectPool level r1).length : ℚ)⌋).toNat [] ∈
      selectPool level r1
    have hidx := floor_mul_toNat_lt r2 (selectPool level r1).length h2b
      (selectPool_length_pos level r1)
    rw [List.getD_eq_getElem _ _ hidx]
    exact List.getElem_mem hidx
  · show CONFIG_COLORS.getD (⌊r3 * ((CONFIG_COLORS.length : Nat) : ℚ)⌋).toNat "" ∈
      CONFIG_COLORS
    have hidx := floor_mul_toNat_lt r3 CONFIG_COLORS.length h3b (by decide)
    rw [List.getD_eq_getElem _ _ hidx]
    exact List.getElem_mem hidx

/-- Witness for C9 at a concrete input: level 1, all three draws 1/2; the
generated shape is a member of the selected pool. -/
theorem claim9_generation_witness :
    (generateRandomPiece 1 (1/2) (1/2) (1/2)).shape ∈ selectPool 1 (1/2) :=
  (claim9_generation 1 (1/2) (1/2) (1/2) (by norm_num) (by norm_num) (by norm_num)
    (by norm_num)).2.2.2.2.2.2.2.1

/-- Claim C10: every updateScore call leaves the high score equal to the
maximum of the previous high score and the new score (so high score >=
score afterwards) and never lowers it; restartGame resets score, level,
board and tray but never lowers the high score; updateLevel and
rotateAllPieces leave it untouched. -/
theorem claim10_high_score (s : GameState) (newScore : Int)
    (newPieces : List (Option Piece)) (lvl : Nat) (b : Bool) :
    (updateScore s newScore).highScore = max s.highScore newScore ∧
    (updateScore s newScore).score ≤ (updateScore s newScore).highScore ∧
    s.highScore ≤ (updateScore s newScore).highScore ∧
    s.highScore ≤ (restartGame s newPieces).highScore ∧
    (restartGame s newPieces).score = 0 ∧
    (restartGame s newPieces).level = 1 ∧
    (restartGame s newPieces).grid = emptyGrid ∧
    (restartGame s newPieces).activePieces = newPieces ∧
    (updateLevel s lvl).highScore = s.highScore ∧
    (rotateAllPieces s b).highScore = s.highScore := by
  obtain ⟨h1, h2, h3⟩ := updateScore_fields s newScore
  obtain ⟨r1, r2, r3, r4, r5⟩ := restart_fields s newPieces
  exact ⟨h2, by rw [h1, h2]; omega, by rw [h2]; omega,
    by rw [r3]; omega, r2, r4, r1, r5, rfl, rfl⟩

end BlockBlast
